import Mathlib

/-!
# Verification of the tui-test execution engine specification

A shallow embedding of the core of the tui-test terminal-application test
runner, together with theorems settling the specified properties.

The embedding follows the TypeScript sources:
* `TestCase` (title path, id, outcome fold) from `src/test/testcase.ts`;
* the declaration API (`test`, `test.skip`, `test.fail`) from `src/test/test.ts`;
* the `toHaveValue` matcher from `src/test/matchers/toHaveValue.ts`;
* the orchestrator's only-gate, test-filter step and retry loop from the
  runner (`runSuites` / `run`);
* `runTestWorker`'s promise resolution from the worker module.

Components whose source files are not part of the repository snapshot
(the shared `poll` helper, the `Terminal` buffer getters, the
worker-outcome-to-status mapping and the expect framework's negation
handling) are modelled from the specification; each such definition says
so in its doc comment.
-/

namespace TuiTest

/-! ## Data model (`src/test/testcase.ts`) -/

/-- Source location of a test declaration (`Location` in `testcase.ts`). -/
structure Location where
  row : Nat
  column : Nat
deriving DecidableEq

/-- The `type` field of a `Suite` node. -/
inductive SuiteType
  | root
  | project
  | file
  | describe
deriving DecidableEq

/-- One ancestor suite, as observed by `TestCase.titlePath` and
`TestCase.filePath`: only the `title` and `type` fields are read there. -/
structure SuiteNode where
  title : String
  type : SuiteType
deriving DecidableEq

/-- `TestStatus` from `testcase.ts`. -/
inductive TestStatus
  | expected
  | unexpected
  | pending
  | skipped
  | flaky
deriving DecidableEq

/-- Modelled from the spec: `SnapshotStatus` lives in
`matchers/toMatchSnapshot.ts`, which is not part of the snapshot; the spec
gives `{name, outcome ∈ {matched, mismatched, written, updated, missing}}`. -/
inductive SnapshotOutcome
  | matched
  | mismatched
  | written
  | updated
  | missing
deriving DecidableEq

/-- Modelled from the spec (see `SnapshotOutcome`). -/
structure SnapshotStatus where
  name : String
  outcome : SnapshotOutcome
deriving DecidableEq

/-- `TestResult` from `testcase.ts`. -/
structure TestResult where
  status : TestStatus
  error : Option String := none
  duration : Int := 0
  snapshots : List SnapshotStatus := []
deriving DecidableEq

/-- A `TestCase`, keeping the fields the claims read: `title`, `location`,
the (opaque) `testFunction`, the ancestor suite chain starting at
`this.suite` and walking `parentSuite` root-ward, and `annotations`
(a list of strings, as used by the runner: `"only"`, `"skip"`, `"fail"`). -/
structure TestCase where
  title : String
  location : Location
  testFunction : Nat
  chain : List SuiteNode
  annotations : List String
deriving DecidableEq

/-- The body of the `while` loop of `TestCase.titlePath`: the titles pushed
while walking the suite chain root-ward (in traversal order, before the
final `reverse`). -/
def titlePathAux (loc : Location) : List SuiteNode → List String
  | [] => []
  | s :: rest =>
    (match s.type with
      | SuiteType.project =>
        if s.title.length ≠ 0 then ["[" ++ s.title ++ "]"] else []
      | SuiteType.describe => [s.title]
      | SuiteType.file =>
        [s.title ++ ":" ++ toString loc.row ++ ":" ++ toString loc.row]
      | SuiteType.root => []) ++ titlePathAux loc rest

/-- `TestCase.titlePath`: the collected titles, reversed, with the test's
own title appended. -/
def titlePath (t : TestCase) : List String :=
  (titlePathAux t.location t.chain).reverse ++ [t.title]

/-- `TestCase`'s `id` as assigned by the constructor:
`this.titlePath().join("")`. -/
def testId (t : TestCase) : String :=
  String.join (titlePath t)

/-- `TestCase.filePath`: the title of the nearest ancestor suite of type
`file`, if any. -/
def filePath (t : TestCase) : Option String :=
  (t.chain.find? (fun s => s.type = SuiteType.file)).map SuiteNode.title

/-! ## Outcome fold (`TestCase.outcome`) -/

/-- The loop of `TestCase.outcome` over `this.results.slice(1)`, carrying
the running `status`. -/
def outcomeFold (status : TestStatus) : List TestResult → TestStatus
  | [] => status
  | result :: rest =>
    if (status = TestStatus.unexpected ∧ result.status = TestStatus.expected) ∨
        (status = TestStatus.expected ∧ result.status ≠ TestStatus.expected) then
      TestStatus.flaky
    else
      outcomeFold result.status rest

/-- `TestCase.outcome`. -/
def outcome (results : List TestResult) : TestStatus :=
  match results with
  | [] => TestStatus.skipped
  | first :: rest => outcomeFold first.status rest

/-- The flaky transition of the documented outcome rule:
`unexpected → expected`, or `expected →` anything non-`expected`. -/
def flakyTransition (a b : TestStatus) : Prop :=
  (a = TestStatus.unexpected ∧ b = TestStatus.expected) ∨
    (a = TestStatus.expected ∧ b ≠ TestStatus.expected)

instance (a b : TestStatus) : Decidable (flakyTransition a b) := by
  unfold flakyTransition; infer_instance

/-- Whether some adjacent pair of the status list is a flaky transition. -/
def hasFlakyTransition : List TestStatus → Bool
  | a :: b :: rest => decide (flakyTransition a b) || hasFlakyTransition (b :: rest)
  | _ => false

/-- The outcome rule as the specification words it: no results means
`skipped`; otherwise `flaky` as soon as a flaky transition occurs, and
otherwise the status of the last result. -/
def outcomeSpec (results : List TestResult) : TestStatus :=
  match results with
  | [] => TestStatus.skipped
  | first :: rest =>
    if hasFlakyTransition ((first :: rest).map TestResult.status) then
      TestStatus.flaky
    else
      (rest.map TestResult.status).getLastD first.status

lemma outcomeFold_eq_spec (rest : List TestResult) :
    ∀ s : TestStatus,
      outcomeFold s rest =
        if hasFlakyTransition (s :: rest.map TestResult.status) then TestStatus.flaky
        else (rest.map TestResult.status).getLastD s := by
  induction rest with
  | nil =>
    intro s
    simp [outcomeFold, hasFlakyTransition, List.getLastD]
  | cons r rs ih =>
    intro s
    by_cases h : flakyTransition s r.status
    · have h' : (s = TestStatus.unexpected ∧ r.status = TestStatus.expected) ∨
          (s = TestStatus.expected ∧ r.status ≠ TestStatus.expected) := h
      simp [outcomeFold, hasFlakyTransition, h', h]
    · have h' : ¬((s = TestStatus.unexpected ∧ r.status = TestStatus.expected) ∨
          (s = TestStatus.expected ∧ r.status ≠ TestStatus.expected)) := h
      simp only [outcomeFold, List.map_cons, hasFlakyTransition]
      rw [if_neg h', ih r.status, List.getLastD_cons]
      have hd : decide (flakyTransition s r.status) = false := by
        simpa using h
      rw [hd]
      simp

/-- C1: `TestCase.outcome` implements the documented fold: empty results
yield `skipped`; otherwise the fold returns `flaky` as soon as a transition
`unexpected → expected` or `expected → non-expected` occurs between
consecutive result statuses, and otherwise the status of the last result. -/
theorem outcome_eq_outcomeSpec (results : List TestResult) :
    outcome results = outcomeSpec results := by
  cases results with
  | nil => rfl
  | cons first rest =>
    simp only [outcome, outcomeSpec, List.map_cons]
    exact outcomeFold_eq_spec rest first.status

/-! ## Title path and id (C2) -/

/-- The documented emission rule of the title path, per ancestor suite:
`[project-title]` for projects with a non-empty title, the describe title
for describe suites, `file-title:row:row` at the file suite, nothing for
the root (and nothing for a project with an empty title). -/
def specEmit (loc : Location) (s : SuiteNode) : Option String :=
  match s.type with
  | SuiteType.project =>
    if s.title.length ≠ 0 then some ("[" ++ s.title ++ "]") else none
  | SuiteType.describe => some s.title
  | SuiteType.file =>
    some (s.title ++ ":" ++ toString loc.row ++ ":" ++ toString loc.row)
  | SuiteType.root => none

lemma titlePathAux_eq_filterMap (loc : Location) (chain : List SuiteNode) :
    titlePathAux loc chain = chain.filterMap (specEmit loc) := by
  induction chain with
  | nil => rfl
  | cons s rest ih =>
    cases hty : s.type <;>
      simp [titlePathAux, specEmit, hty, ih, List.filterMap_cons] <;>
      split <;> simp [List.filterMap_cons]

/-- C2 (amended): the id of a test equals the concatenation (no separator)
of the documented title path: walk the ancestor suites root-ward, emit the
documented string for each (if any), reverse the sequence, append the
test's own title, and join the pieces. Uniqueness of ids does not hold (see
the counterexample), so it is not part of this statement. -/
theorem testId_eq_spec_titlePath (t : TestCase) :
    testId t =
      String.join ((t.chain.filterMap (specEmit t.location)).reverse ++ [t.title]) := by
  simp [testId, titlePath, titlePathAux_eq_filterMap]

/-- A one-file suite chain shared by the two colliding tests below. -/
def demoChain : List SuiteNode :=
  [{ title := "file.test.ts", type := SuiteType.file }]

/-- A test declared with title `a` at row 5, column 1. -/
def demoTestA : TestCase :=
  { title := "a", location := { row := 5, column := 1 }, testFunction := 0,
    chain := demoChain, annotations := [] }

/-- A distinct test declared with the same title `a` on the same row 5 but
at column 9 (for instance a second `test("a", …)` call on the same line). -/
def demoTestB : TestCase :=
  { title := "a", location := { row := 5, column := 9 }, testFunction := 1,
    chain := demoChain, annotations := [] }

/-- C2 counterexample: two distinct tests share an id. The title path uses
the declaration row twice and never the column, so two tests with the same
title declared on the same row of the same file collide: both ids are
`file.test.ts:5:5a`. This refutes the claim's conjunct that no two distinct
tests share an id. -/
theorem testId_collision :
    demoTestA ≠ demoTestB ∧ testId demoTestA = testId demoTestB := by
  exact ⟨by decide, rfl⟩

/-! ## Terminal buffers and the `toHaveValue` matcher (C3, C9) -/

/-- JavaScript `String.prototype.includes`: substring containment. -/
def jsIncludes (s sub : String) : Bool :=
  decide (sub.data <:+: s.data)

/-- Modelled from the spec: the `Terminal` (`src/terminal/term.ts`) is not
part of the snapshot. Per the spec a terminal owns a fixed-size screen and
an unbounded scrollback of lines scrolled off the top; the viewable buffer
is the screen only and the full buffer is scrollback ++ screen, row-major
lists of cells carrying the character. -/
structure Terminal where
  scrollback : List (List Char)
  screen : List (List Char)
deriving DecidableEq

/-- Modelled from the spec: `getViewableBuffer()` returns the current
screen, row-major. -/
def Terminal.getViewableBuffer (t : Terminal) : List (List Char) :=
  t.screen

/-- Modelled from the spec: `getBuffer()` returns scrollback ++ screen,
row-major. -/
def Terminal.getBuffer (t : Terminal) : List (List Char) :=
  t.scrollback ++ t.screen

/-- The `expected` argument of `toHaveValue`: a literal string, or a
compiled regular expression. A `RegExp` is kept opaque as its `test`
predicate on strings. -/
inductive Expected
  | str (s : String)
  | regex (testFun : String → Bool)

/-- The `options` argument of `toHaveValue`: `{timeout?: ms, full?: bool}`. -/
structure HaveValueOptions where
  timeout : Option Nat := none
  full : Option Bool := none

/-- `options?.timeout` of a possibly-absent options object. -/
def optTimeout (options : Option HaveValueOptions) : Option Nat :=
  options.bind HaveValueOptions.timeout

/-- `options?.full` of a possibly-absent options object. -/
def optFull (options : Option HaveValueOptions) : Option Bool :=
  options.bind HaveValueOptions.full

/-- Modelled from the spec: the shared `poll` helper (`src/utils/poll.ts`)
is imported by the matcher but its source is not part of the snapshot. Per
the spec, given predicate `p`, interval `i`, deadline `d` and inversion
`inv`: sample immediately, then every `i` ms, until either the resolved
condition holds or the deadline passes; the first sample occurs before any
sleep. The resolved condition is the predicate equalling `!inv` (a
positive match resolves on `true`, a negated match resolves on `false`),
and the returned pass value is the predicate's value at resolution, or
`inv` when the deadline passes. `start` counts samples already taken and
`fuel` the samples still allowed. -/
def pollFrom (p : Nat → Bool) (inv : Bool) : Nat → Nat → Bool
  | _, 0 => inv
  | start, fuel + 1 =>
    if p start = !inv then !inv else pollFrom p inv (start + 1) fuel

/-- Modelled from the spec (see `pollFrom`): samples are taken at times
`0, i, 2i, …` while the deadline `d` has not passed, hence `d / i + 1`
samples; the `k`-th sample is the predicate at sample index `k`. -/
def poll (p : Nat → Bool) (interval deadline : Nat) (inv : Bool) : Bool :=
  pollFrom p inv 0 (deadline / interval + 1)

/-- The buffer rendering of `toHaveValue`: each row's cells joined with no
separator, then the rows joined with no separator. -/
def renderBuffer (rows : List (List Char)) : String :=
  String.join (rows.map (fun line => String.mk line))

/-- The predicate of `toHaveValue`: `buffer.includes(expected)` for a
string, `expected.test(buffer)` for a regular expression. -/
def evalExpected : Expected → String → Bool
  | Expected.str s, buffer => jsIncludes buffer s
  | Expected.regex testFun, buffer => testFun buffer

/-- `toHaveValue` from `src/test/matchers/toHaveValue.ts`: polls, every
50 ms up to `options?.timeout ?? getExpectTimeout()`, the predicate over
the rendered buffer — the full buffer when `options?.full === true`, the
viewable buffer otherwise — threading the matcher's `isNot` flag to
`poll`, and returns the resulting pass value. The terminal contents at the
`k`-th sample are `trace k`. -/
def toHaveValue (trace : Nat → Terminal) (isNot : Bool) (expected : Expected)
    (options : Option HaveValueOptions) (expectTimeout : Nat) : Bool :=
  poll
    (fun k =>
      let t := trace k
      evalExpected expected
        (renderBuffer
          (if optFull options = some true then t.getBuffer else t.getViewableBuffer)))
    50
    ((optTimeout options).getD expectTimeout)
    isNot

/-- Modelled from the spec: the expect framework's inversion handling (the
`expect` library is an external collaborator). A positive invocation
succeeds when the returned pass value is `true`; an invocation under
`.not` succeeds when the returned pass value is `false`. -/
def toHaveValueSucceeds (trace : Nat → Terminal) (isNot : Bool) (expected : Expected)
    (options : Option HaveValueOptions) (expectTimeout : Nat) : Bool :=
  toHaveValue trace isNot expected options expectTimeout != isNot

lemma pollFrom_false_eq_true_iff (p : Nat → Bool) :
    ∀ fuel start, pollFrom p false start fuel = true ↔
      ∃ k, k < fuel ∧ p (start + k) = true := by
  intro fuel
  induction fuel with
  | zero => intro start; simp [pollFrom]
  | succ m ih =>
    intro start
    show (if p start = !false then !false else pollFrom p false (start + 1) m) = true ↔ _
    rw [Bool.not_false]
    by_cases hp : p start = true
    · rw [if_pos hp]
      constructor
      · intro _; exact ⟨0, Nat.succ_pos m, by simpa using hp⟩
      · intro _; rfl
    · rw [if_neg hp, ih (start + 1)]
      constructor
      · rintro ⟨k, hk, hpk⟩
        exact ⟨k + 1, Nat.succ_lt_succ hk, by
          have : start + 1 + k = start + (k + 1) := by omega
          rwa [this] at hpk⟩
      · rintro ⟨k, hk, hpk⟩
        cases k with
        | zero => exact absurd (by simpa using hpk) hp
        | succ j =>
          refine ⟨j, Nat.lt_of_succ_lt_succ hk, ?_⟩
          have : start + 1 + j = start + (j + 1) := by omega
          rwa [this]

lemma pollFrom_const (b inv : Bool) :
    ∀ fuel start, pollFrom (fun _ => b) inv start (fuel + 1) = b := by
  intro fuel
  induction fuel with
  | zero => intro start; cases b <;> cases inv <;> rfl
  | succ m ih =>
    intro start
    show (if b = !inv then !inv else pollFrom (fun _ => b) inv (start + 1) (m + 1)) = b
    by_cases hb : b = !inv
    · rw [if_pos hb, hb]
    · rw [if_neg hb]
      exact ih (start + 1)

lemma renderBuffer_eq_mk_flatten (rows : List (List Char)) :
    renderBuffer rows = String.mk rows.flatten := by
  rw [renderBuffer, String.join_eq]
  congr 1
  rw [List.map_map]
  have hcomp : (String.data ∘ fun line : List Char => String.mk line) = id := rfl
  rw [hcomp, List.map_id]

/-- C3: `toHaveValue` polls every 50 ms against the deadline
`options?.timeout ?? expect-timeout` — hence samples at indices
`0 … deadline / 50` — rendering at each sample the selected buffer (the
full buffer `scrollback ++ screen` when `options.full` is `true`, the
screen otherwise) into one string by plain concatenation of all cells, and
succeeds exactly when the predicate — substring containment for a string,
the regular expression's test for a regex — holds at some sample. -/
theorem toHaveValue_polls_spec (trace : Nat → Terminal) (expected : Expected)
    (options : Option HaveValueOptions) (expectTimeout : Nat) :
    (toHaveValue trace false expected options expectTimeout = true ↔
      ∃ k, k ≤ ((optTimeout options).getD expectTimeout) / 50 ∧
        evalExpected expected
          (String.mk
            (if optFull options = some true
              then ((trace k).scrollback ++ (trace k).screen).flatten
              else (trace k).screen.flatten)) = true) ∧
    (∀ s, evalExpected (Expected.str s) = fun buffer => jsIncludes buffer s) ∧
    (∀ f, evalExpected (Expected.regex f) = f) := by
  refine ⟨?_, fun s => rfl, fun f => rfl⟩
  rw [toHaveValue, poll, pollFrom_false_eq_true_iff]
  constructor
  · rintro ⟨k, hk, hpk⟩
    refine ⟨k, by omega, ?_⟩
    simpa [renderBuffer_eq_mk_flatten, Terminal.getBuffer, Terminal.getViewableBuffer,
      apply_ite (fun rows => renderBuffer rows), apply_ite List.flatten] using hpk
  · rintro ⟨k, hk, hpk⟩
    refine ⟨k, by omega, ?_⟩
    simpa [renderBuffer_eq_mk_flatten, Terminal.getBuffer, Terminal.getViewableBuffer,
      apply_ite (fun rows => renderBuffer rows), apply_ite List.flatten] using hpk

/-! ## Inversion semantics on a stable buffer (C9) -/

/-- A terminal whose (stable) screen shows `ab` and has no scrollback. -/
def demoTerminal : Terminal :=
  { scrollback := [], screen := [['a', 'b']] }

/-- C9 counterexample: on a stable buffer containing the expected value,
the poll with inversion `false` and the poll with inversion `true` return
the same pass value (both `true`), not opposite results: the negated
matcher is the one that succeeds on pass value `false`, so duality is not
achieved by opposite poll results. This refutes the claim as stated at the
concrete buffer `ab` with expected value `"a"`. -/
theorem inversion_poll_counterexample :
    toHaveValue (fun _ => demoTerminal) false (Expected.str "a") none 100 = true ∧
    toHaveValue (fun _ => demoTerminal) true (Expected.str "a") none 100 = true :=
  ⟨rfl, rfl⟩

/-- C9 (amended): for a stable buffer, the polls with inversion `false` and
inversion `true` return the same pass value; the expectation under `.not`
succeeds exactly when the pass value is `false`, so the positive and the
negated matcher succeed in exactly opposite cases — in particular they can
never both succeed. -/
theorem inversion_duality_amended (t : Terminal) (expected : Expected)
    (options : Option HaveValueOptions) (expectTimeout : Nat) :
    toHaveValue (fun _ => t) true expected options expectTimeout =
      toHaveValue (fun _ => t) false expected options expectTimeout ∧
    toHaveValueSucceeds (fun _ => t) true expected options expectTimeout =
      !toHaveValueSucceeds (fun _ => t) false expected options expectTimeout := by
  set b : Bool :=
    evalExpected expected
      (renderBuffer
        (if optFull options = some true then t.getBuffer else t.getViewableBuffer))
    with hb
  have hconst : ∀ inv : Bool,
      toHaveValue (fun _ => t) inv expected options expectTimeout = b := by
    intro inv
    show pollFrom (fun _ => b) inv 0 (((optTimeout options).getD expectTimeout) / 50 + 1) = b
    exact pollFrom_const b inv _ 0
  refine ⟨by rw [hconst true, hconst false], ?_⟩
  rw [toHaveValueSucceeds, toHaveValueSucceeds, hconst true, hconst false]
  cases b <;> rfl

/-! ## Orchestrator: retry loop (C4) -/

/-- The stopping condition of the retry loop in `runSuites`:
`status == "expected" || status == "skipped"`. -/
def stopStatus (s : TestStatus) : Prop :=
  s = TestStatus.expected ∨ s = TestStatus.skipped

instance (s : TestStatus) : Decidable (stopStatus s) := by
  unfold stopStatus; infer_instance

/-- The attempt bound of the retry loop: `Math.max(0, getRetries()) + 1`. -/
def attemptCap (retries : Int) : Nat :=
  (max 0 retries).toNat + 1

/-- The retry loop of `runSuites`: attempt `i` records status `f i`
(appended to the test's results) and the loop breaks as soon as a recorded
status is `expected` or `skipped`; `fuel` is the number of loop iterations
still allowed. The loop is entered with `i = 0` and
`fuel = attemptCap retries`. -/
def attemptLoop (f : Nat → TestStatus) : Nat → Nat → List TestStatus
  | _, 0 => []
  | i, fuel + 1 =>
    if stopStatus (f i) then [f i] else f i :: attemptLoop f (i + 1) fuel

lemma attemptLoop_length_le (f : Nat → TestStatus) :
    ∀ fuel start, (attemptLoop f start fuel).length ≤ fuel := by
  intro fuel
  induction fuel with
  | zero => intro start; simp [attemptLoop]
  | succ m ih =>
    intro start
    show (if stopStatus (f start) then [f start]
        else f start :: attemptLoop f (start + 1) m).length ≤ m + 1
    by_cases h : stopStatus (f start)
    · simp [h]
    · simpa [h] using ih (start + 1)

lemma attemptLoop_eq_map (f : Nat → TestStatus) :
    ∀ fuel start, attemptLoop f start fuel =
      (List.range (attemptLoop f start fuel).length).map (fun k => f (start + k)) := by
  intro fuel
  induction fuel with
  | zero => intro start; simp [attemptLoop]
  | succ m ih =>
    intro start
    have heq : attemptLoop f start (m + 1) =
        if stopStatus (f start) then [f start] else f start :: attemptLoop f (start + 1) m := rfl
    by_cases h : stopStatus (f start)
    · rw [heq, if_pos h]
      simp [List.range_succ]
    · rw [heq, if_neg h]
      conv_lhs => rw [ih (start + 1)]
      show f start :: List.map (fun k => f (start + 1 + k))
            (List.range (attemptLoop f (start + 1) m).length) =
          List.map (fun k => f (start + k))
            (List.range ((attemptLoop f (start + 1) m).length + 1))
      rw [List.range_succ_eq_map, List.map_cons, List.map_map]
      have hfun : ((fun k => f (start + k)) ∘ Nat.succ) = fun k => f (start + 1 + k) := by
        funext k
        simp only [Function.comp_apply]
        congr 1
        omega
      have h0 : start + 0 = start := Nat.add_zero start
      rw [hfun, h0]

lemma attemptLoop_length_stop (f : Nat → TestStatus) :
    ∀ fuel start j, j < fuel → stopStatus (f (start + j)) →
      (∀ k, k < j → ¬stopStatus (f (start + k))) →
      (attemptLoop f start fuel).length = j + 1 := by
  intro fuel
  induction fuel with
  | zero => intro start j hj; omega
  | succ m ih =>
    intro start j hj hstop hbefore
    show (if stopStatus (f start) then [f start]
        else f start :: attemptLoop f (start + 1) m).length = j + 1
    by_cases h : stopStatus (f start)
    · have hj0 : j = 0 := by
        by_contra hne
        exact hbefore 0 (Nat.pos_of_ne_zero hne) (by simpa using h)
      simp [h, hj0]
    · have hj0 : j ≠ 0 := by
        intro hz
        exact h (by simpa [hz] using hstop)
      obtain ⟨j', rfl⟩ : ∃ j', j = j' + 1 := ⟨j - 1, by omega⟩
      rw [if_neg h]
      have hrest : (attemptLoop f (start + 1) m).length = j' + 1 := by
        refine ih (start + 1) j' (by omega) ?_ ?_
        · have : start + 1 + j' = start + (j' + 1) := by omega
          rwa [this]
        · intro k hk
          have : start + 1 + k = start + (k + 1) := by omega
          rw [this]
          exact hbefore (k + 1) (by omega)
      simp [hrest]

lemma attemptLoop_length_noStop (f : Nat → TestStatus) :
    ∀ fuel start, (∀ j, j < fuel → ¬stopStatus (f (start + j))) →
      (attemptLoop f start fuel).length = fuel := by
  intro fuel
  induction fuel with
  | zero => intro start _; simp [attemptLoop]
  | succ m ih =>
    intro start hno
    show (if stopStatus (f start) then [f start]
        else f start :: attemptLoop f (start + 1) m).length = m + 1
    have h : ¬stopStatus (f start) := by simpa using hno 0 (Nat.succ_pos m)
    rw [if_neg h]
    have hrest : (attemptLoop f (start + 1) m).length = m := by
      refine ih (start + 1) ?_
      intro j hj
      have : start + 1 + j = start + (j + 1) := by omega
      rw [this]
      exact hno (j + 1) (by omega)
    simp [hrest]

/-- C4: the retry loop runs attempts sequentially — the recorded results
are exactly the statuses of attempts `0, 1, …` in order, one per attempt —
with at most `max(0, retries) + 1` attempts; it stops at the first attempt
whose status is `expected` or `skipped` (so the attempt count is that
attempt's one-based index), and otherwise runs all `max(0, retries) + 1`
attempts, which equals `retries + 1` whenever `retries ≥ 0`. -/
theorem retry_attempts_spec (f : Nat → TestStatus) (retries : Int) :
    attemptLoop f 0 (attemptCap retries) =
      (List.range (attemptLoop f 0 (attemptCap retries)).length).map f ∧
    (attemptLoop f 0 (attemptCap retries)).length ≤ attemptCap retries ∧
    (∀ j, j < attemptCap retries → stopStatus (f j) →
      (∀ k, k < j → ¬stopStatus (f k)) →
      (attemptLoop f 0 (attemptCap retries)).length = j + 1) ∧
    ((∀ j, j < attemptCap retries → ¬stopStatus (f j)) →
      (attemptLoop f 0 (attemptCap retries)).length = attemptCap retries) ∧
    (0 ≤ retries → (attemptCap retries : Int) = retries + 1) := by
  refine ⟨?_, attemptLoop_length_le f _ 0, ?_, ?_, ?_⟩
  · have := attemptLoop_eq_map f (attemptCap retries) 0
    simpa using this
  · intro j hj hstop hbefore
    exact attemptLoop_length_stop f (attemptCap retries) 0 j hj (by simpa using hstop)
      (fun k hk => by simpa using hbefore k hk)
  · intro hno
    exact attemptLoop_length_noStop f (attemptCap retries) 0
      (fun j hj => by simpa using hno j hj)
  · intro hret
    rw [attemptCap]
    omega

/-- Witness for C4 at `retries = 2` and a worker that fails the first
attempt and passes the second: exactly two attempts are recorded. -/
theorem retry_attempts_spec_witness :
    (1 : Nat) < attemptCap 2 ∧
    stopStatus ((fun j => if j = 1 then TestStatus.expected else TestStatus.unexpected) 1) ∧
    (attemptLoop (fun j => if j = 1 then TestStatus.expected else TestStatus.unexpected) 0
        (attemptCap 2)).length = 2 :=
  ⟨by decide, by decide,
    (retry_attempts_spec
        (fun j => if j = 1 then TestStatus.expected else TestStatus.unexpected) 2).2.2.1
      1 (by decide) (by decide) (by decide)⟩

/-! ## Selection pipeline: only-gate (C5) and skip handling (C6) -/

/-- The only-gate of `run`: if some collected test's annotations include
`"only"`, keep exactly the tests whose annotations include `"only"`;
otherwise leave the list unchanged. -/
def refineOnly (tests : List TestCase) : List TestCase :=
  if tests.any (fun t => t.annotations.contains "only") then
    tests.filter (fun t => t.annotations.contains "only")
  else
    tests

lemma contains_iff_mem (l : List String) (a : String) : l.contains a = true ↔ a ∈ l := by
  simp

/-- C5: when at least one collected test carries the `only` annotation,
exactly the tests carrying `only` are retained (a test is in the refined
list iff it was collected and carries `only`); when no test carries
`only`, the collected list is unchanged. -/
theorem only_gate_spec (tests : List TestCase) :
    ((∃ t ∈ tests, "only" ∈ t.annotations) →
      refineOnly tests = tests.filter (fun t => t.annotations.contains "only") ∧
      ∀ t, t ∈ refineOnly tests ↔ t ∈ tests ∧ "only" ∈ t.annotations) ∧
    ((∀ t ∈ tests, "only" ∉ t.annotations) → refineOnly tests = tests) := by
  constructor
  · rintro ⟨t0, ht0, hann⟩
    have hany : tests.any (fun t => t.annotations.contains "only") = true := by
      rw [List.any_eq_true]
      exact ⟨t0, ht0, by simpa [contains_iff_mem _ _] using hann⟩
    have heq : refineOnly tests = tests.filter (fun t => t.annotations.contains "only") := by
      rw [refineOnly, if_pos hany]
    refine ⟨heq, fun t => ?_⟩
    rw [heq, List.mem_filter, contains_iff_mem _ _]
  · intro hnone
    have hany : tests.any (fun t => t.annotations.contains "only") = false := by
      rw [Bool.eq_false_iff]
      intro hcontra
      obtain ⟨t0, ht0, hc⟩ := List.any_eq_true.mp hcontra
      exact hnone t0 ht0 (by simpa [contains_iff_mem _ _] using hc)
    rw [refineOnly, hany]
    simp

/-- A test carrying the `only` annotation, used by the witnesses. -/
def demoOnlyTest : TestCase :=
  { title := "o", location := { row := 7, column := 1 }, testFunction := 2,
    chain := demoChain, annotations := ["only"] }

/-- Witness for C5: in a collection with one `only` test and one plain
test, exactly the `only` test is retained. -/
theorem only_gate_spec_witness :
    (∃ t ∈ [demoOnlyTest, demoTestA], "only" ∈ t.annotations) ∧
    refineOnly [demoOnlyTest, demoTestA] =
      List.filter (fun t => t.annotations.contains "only") [demoOnlyTest, demoTestA] :=
  ⟨⟨demoOnlyTest, by decide, by decide⟩,
    ((only_gate_spec [demoOnlyTest, demoTestA]).1 ⟨demoOnlyTest, by decide, by decide⟩).1⟩

/-- Modelled from the spec: the `runTestWorker` consumed by `runSuites`
(returning a recorded status, handling the `skip` annotation) is not part
of the snapshot; per the spec an attempt first checks the annotation —
"If the test is annotated `skip`, emit `skipped` and stop" — and only
otherwise dispatches to the pool, whose status for attempt `i` is
`worker i`. The boolean records whether the attempt was dispatched to a
worker. -/
def runAttempt (t : TestCase) (worker : Nat → TestStatus) (i : Nat) :
    TestStatus × Bool :=
  if "skip" ∈ t.annotations then (TestStatus.skipped, false) else (worker i, true)

/-- The retry loop of `runSuites` over attempts of `runAttempt`, keeping
the dispatch flag of each attempt (compare `attemptLoop`). -/
def attemptLoopDispatch (t : TestCase) (worker : Nat → TestStatus) :
    Nat → Nat → List (TestStatus × Bool)
  | _, 0 => []
  | i, fuel + 1 =>
    if stopStatus (runAttempt t worker i).1 then [runAttempt t worker i]
    else runAttempt t worker i :: attemptLoopDispatch t worker (i + 1) fuel

/-- C6: a test annotated `skip` is not removed by the selection step (the
only-gate leaves it in place whenever no test carries `only`), and its run
records exactly one result, with status `skipped` and no dispatch to any
worker, regardless of the retry budget. -/
theorem skip_emits_skipped (t : TestCase) (worker : Nat → TestStatus) (retries : Int)
    (h : "skip" ∈ t.annotations) :
    attemptLoopDispatch t worker 0 (attemptCap retries) = [(TestStatus.skipped, false)] ∧
    (∀ tests : List TestCase, t ∈ tests →
      (∀ u ∈ tests, "only" ∉ u.annotations) → t ∈ refineOnly tests) := by
  constructor
  · have hrun : runAttempt t worker 0 = (TestStatus.skipped, false) := by
      rw [runAttempt, if_pos h]
    show (if stopStatus (runAttempt t worker 0).1 then [runAttempt t worker 0]
        else runAttempt t worker 0 :: attemptLoopDispatch t worker 1 (max 0 retries).toNat) =
      [(TestStatus.skipped, false)]
    rw [hrun]
    have hstop : stopStatus (TestStatus.skipped, false).1 := Or.inr rfl
    rw [if_pos hstop]
  · intro tests ht honly
    have hnone := (only_gate_spec tests).2 honly
    rw [hnone]
    exact ht

/-- A test carrying the `skip` annotation, used by the witness. -/
def demoSkipTest : TestCase :=
  { title := "s", location := { row := 9, column := 1 }, testFunction := 3,
    chain := demoChain, annotations := ["skip"] }

/-- Witness for C6: with `retries = 2` and a worker that would report
`unexpected`, the skip-annotated test records exactly one `skipped`
result and is never dispatched. -/
theorem skip_emits_skipped_witness :
    "skip" ∈ demoSkipTest.annotations ∧
    attemptLoopDispatch demoSkipTest (fun _ => TestStatus.unexpected) 0 (attemptCap 2) =
      [(TestStatus.skipped, false)] ∧
    demoSkipTest ∈ refineOnly [demoSkipTest, demoTestA] :=
  ⟨by decide,
    (skip_emits_skipped demoSkipTest (fun _ => TestStatus.unexpected) 2 (by decide)).1,
    (skip_emits_skipped demoSkipTest (fun _ => TestStatus.unexpected) 2 (by decide)).2
      [demoSkipTest, demoTestA] (by decide) (by decide)⟩

/-! ## Selection pipeline: test filter (C7) -/

/-- `filter.replaceAll("\\", "\\\\")` (the two JavaScript literals denote
one and two backslashes): every backslash of the filter string is doubled
before the string is handed to the `RegExp` constructor. -/
def escapeBackslashes (s : String) : String :=
  String.mk (s.data.flatMap (fun c => if c = '\\' then ['\\', '\\'] else [c]))

/-- The pattern construction of the test-filter step:
`testFilter.map(filter => new RegExp(filter.replaceAll("\\", "\\\\")))`.
The JavaScript `RegExp` constructor is abstracted as `compile`, where
`none` models a thrown `SyntaxError`; a compiled pattern is kept opaque as
its `test` predicate on strings. -/
def compileFilters (compile : String → Option (String → Bool))
    (filters : List String) : Option (List (String → Bool)) :=
  filters.mapM (fun f => compile (escapeBackslashes f))

/-- Result of the test-filter step of `run`: either the refined test list,
or termination of the process with an exit code and a diagnostic printed
to standard error. -/
inductive RunOutcome
  | fatal (exitCode : Nat) (diagnostic : String)
  | selected (tests : List TestCase)

/-- The diagnostic printed by `run` when a test filter fails to compile. -/
def invalidFilterDiagnostic : String :=
  "Error: invalid test filter supplied. Test filters must be valid regular expressions"

/-- The test-filter step of `run`: when `testFilter` is present and
non-empty, compile every filter (backslashes doubled) and retain the tests
whose resolved file path (`path.resolve(test.filePath() ?? "")`,
abstracted as `resolve`) matches at least one pattern; if compilation
throws, print the diagnostic and exit with code 1. -/
def refineFilter (compile : String → Option (String → Bool))
    (resolve : String → String) (testFilter : Option (List String))
    (tests : List TestCase) : RunOutcome :=
  match testFilter with
  | none => RunOutcome.selected tests
  | some filters =>
    if filters.length = 0 then RunOutcome.selected tests
    else
      match compileFilters compile filters with
      | none => RunOutcome.fatal 1 invalidFilterDiagnostic
      | some patterns =>
        RunOutcome.selected
          (tests.filter (fun u => patterns.any (fun p => p (resolve ((filePath u).getD "")))))

/-- C7: with a non-empty `testFilter`, each filter string is compiled as a
regular expression (after its backslashes are doubled); when all compile,
exactly the tests whose resolved file path matches at least one pattern
are retained, and when any filter fails to compile the run terminates
with exit code 1 — non-zero — and the invalid-filter diagnostic. -/
theorem testFilter_spec (compile : String → Option (String → Bool))
    (resolve : String → String) (filters : List String) (tests : List TestCase)
    (h : filters ≠ []) :
    (∀ patterns, compileFilters compile filters = some patterns →
      refineFilter compile resolve (some filters) tests =
        RunOutcome.selected
          (tests.filter (fun u => patterns.any (fun p => p (resolve ((filePath u).getD ""))))) ∧
      ∀ t, t ∈ tests.filter (fun u => patterns.any (fun p => p (resolve ((filePath u).getD "")))) ↔
        t ∈ tests ∧ ∃ p ∈ patterns, p (resolve ((filePath t).getD "")) = true) ∧
    (compileFilters compile filters = none →
      refineFilter compile resolve (some filters) tests =
        RunOutcome.fatal 1 invalidFilterDiagnostic ∧ (1 : Nat) ≠ 0) := by
  have hlen : ¬filters.length = 0 := by
    simpa [List.length_eq_zero] using h
  constructor
  · intro patterns hcomp
    constructor
    · rw [refineFilter]
      rw [if_neg hlen, hcomp]
    · intro t
      rw [List.mem_filter, List.any_eq_true]
  · intro hcomp
    constructor
    · rw [refineFilter]
      rw [if_neg hlen, hcomp]
    · omega

/-- A concrete stand-in for the `RegExp` constructor, defined on the one
filter the witness uses: the pattern `demo` matches any path containing
`demo`, and every other source string fails to compile. -/
def demoCompile : String → Option (String → Bool) :=
  fun s => if s = "demo" then some (fun path => jsIncludes path "demo") else none

/-- Witness for C7 at a concrete compile function, filter list and test
list: the step retains exactly the matching tests. -/
theorem testFilter_spec_witness :
    ["demo"] ≠ ([] : List String) ∧
    refineFilter demoCompile (fun s => s) (some ["demo"]) [demoTestA] =
      RunOutcome.selected
        (List.filter
          (fun u => [fun path => jsIncludes path "demo"].any
            (fun p => p ((fun s : String => s) ((filePath u).getD "")))) [demoTestA]) :=
  ⟨by decide,
    ((testFilter_spec demoCompile (fun s => s) ["demo"] [demoTestA] (by decide)).1
      [fun path => jsIncludes path "demo"] rfl).1⟩

/-! ## Worker timeout (C8) -/

/-- The ways the `pool.exec` call of `runTestWorker` can settle, as
observed by its `try`/`catch` and its `on` callback: an `errorMessage`
payload, normal completion, a thrown string, a thrown
`workerpool.Promise.TimeoutError`, a thrown `Error`, or a thrown value of
any other shape. -/
inductive PoolOutcome
  | emittedError (message : String) (duration : Int)
  | completed
  | threwString (s : String)
  | threwTimeout
  | threwError (stack : String)
  | threwOther

/-- `WorkerResult` from the worker module. -/
structure WorkerResult where
  passed : Bool
  error : Option String := none
  duration : Int
deriving DecidableEq

/-- The error message built by `runTestWorker` for a pool timeout (its
wording, including the typo `as exceeded`, is the source's). -/
def timeoutErrorMessage (timeout : Int) : String :=
  "Error: worker was terminated as the timeout (" ++ toString timeout ++
    " ms) as exceeded"

/-- `runTestWorker`'s promise settlement: every branch of the `on`
callback and of the `catch` block calls `resolve` (never `reject`);
`elapsed` abstracts `Date.now() - startTime`. A thrown value that is
neither a string, a `TimeoutError` nor an `Error` reaches no `resolve`
call and leaves the promise pending (`none`); no branch rejects. -/
def runTestWorkerResult (timeout : Int) (elapsed : Int) :
    PoolOutcome → Option WorkerResult
  | PoolOutcome.emittedError message duration =>
    some { passed := false, error := some message, duration := duration }
  | PoolOutcome.completed => some { passed := true, duration := elapsed }
  | PoolOutcome.threwString s =>
    some { passed := false, error := some s, duration := elapsed }
  | PoolOutcome.threwTimeout =>
    some { passed := false, error := some (timeoutErrorMessage timeout),
           duration := elapsed }
  | PoolOutcome.threwError stack =>
    some { passed := false, error := some stack, duration := elapsed }
  | PoolOutcome.threwOther => none

/-- The worker outcome kinds distinguished by the status mapping. -/
inductive WorkerOutcomeKind
  | success
  | failure
  | timedOut

/-- Modelled from the spec: the orchestrator's mapping from worker
outcomes to recorded statuses (the mapping consumed by the current
`runSuites` is not part of the snapshot). Per the spec's table: success ↦
`expected` (`unexpected` when annotated `fail`), failure ↦ `unexpected`
(`expected` when annotated `fail`), timeout ↦ `unexpected` for any
annotations. -/
def recordStatus (outcomeKind : WorkerOutcomeKind) (annots : List String) :
    TestStatus :=
  match outcomeKind with
  | WorkerOutcomeKind.success =>
    if "fail" ∈ annots then TestStatus.unexpected else TestStatus.expected
  | WorkerOutcomeKind.failure =>
    if "fail" ∈ annots then TestStatus.expected else TestStatus.unexpected
  | WorkerOutcomeKind.timedOut => TestStatus.unexpected

lemma timeoutErrorMessage_includes (timeout : Int) :
    jsIncludes (timeoutErrorMessage timeout) (toString timeout ++ " ms") = true := by
  apply decide_eq_true
  refine ⟨"Error: worker was terminated as the timeout (".data, ") as exceeded".data, ?_⟩
  have hB : (" ms) as exceeded" : String).data = (" ms" : String).data ++ (") as exceeded" : String).data := by
    decide
  rw [timeoutErrorMessage]
  simp [String.data_append, hB, List.append_assoc]

/-- C8: when the per-call timeout is positive and the pool call throws the
timeout error (no terminal event arrived before the deadline), the promise
resolves — `runTestWorkerResult` yields a settlement value, never a
rejection — as a failure whose error diagnostic mentions the timeout value
followed by ` ms`, and the recorded status for a timed-out worker outcome
is `unexpected` whatever the annotations. -/
theorem timeout_resolves_unexpected (timeout elapsed : Int) (annots : List String)
    (h : 0 < timeout) :
    ∃ wr : WorkerResult,
      runTestWorkerResult timeout elapsed PoolOutcome.threwTimeout = some wr ∧
      wr.passed = false ∧
      wr.error = some (timeoutErrorMessage timeout) ∧
      jsIncludes (timeoutErrorMessage timeout) (toString timeout ++ " ms") = true ∧
      recordStatus WorkerOutcomeKind.timedOut annots = TestStatus.unexpected := by
  exact ⟨_, rfl, rfl, rfl, timeoutErrorMessage_includes timeout, rfl⟩

/-- Witness for C8 at timeout 500 ms: the resolution is a failure whose
diagnostic mentions `500 ms`. -/
theorem timeout_resolves_unexpected_witness :
    (0 : Int) < 500 ∧
    ∃ wr : WorkerResult,
      runTestWorkerResult 500 500 PoolOutcome.threwTimeout = some wr ∧
      wr.passed = false ∧
      wr.error = some (timeoutErrorMessage 500) ∧
      jsIncludes (timeoutErrorMessage 500) (toString (500 : Int) ++ " ms") = true ∧
      recordStatus WorkerOutcomeKind.timedOut [] = TestStatus.unexpected :=
  ⟨by decide, timeout_resolves_unexpected 500 500 [] (by decide)⟩

/-! ## Declaration API and the global test registry (C10) -/

/-- Which declaration function of `test.ts` was called: `test`,
`test.skip`, or `test.fail`. -/
inductive DeclKind
  | normal
  | skipDecl
  | failDecl
deriving DecidableEq

/-- One declaration-API call: the declaration function used, the test
title, the captured call-site location, and the (opaque) test function. -/
structure DeclCall where
  kind : DeclKind
  title : String
  location : Location
  fn : Nat
deriving DecidableEq

/-- The `TestCase` constructed by a declaration call under the ambient
suite `chain`; `test.skip` and `test.fail` declare the test with the
`skip` / `fail` annotation. -/
def declTest (chain : List SuiteNode) (c : DeclCall) : TestCase :=
  { title := c.title, location := c.location, testFunction := c.fn,
    chain := chain,
    annotations :=
      match c.kind with
      | DeclKind.normal => []
      | DeclKind.skipDecl => ["skip"]
      | DeclKind.failDecl => ["fail"] }

/-- The state mutated by the declaration API: `globalThis.tests` (absent
when it was never initialised) and the ambient suite's `tests` array. The
registry is an association list in which the most recent binding of an id
shadows older ones, matching JavaScript property assignment as observed by
lookup. -/
structure DeclState where
  registry : Option (List (String × TestCase))
  suiteTests : List TestCase
deriving DecidableEq

/-- One declaration-API call of `test.ts`: `test` and `test.skip` build
the `TestCase`, store it under `globalThis.tests[test.id]` when that
registry exists (`globalThis.tests != null`), and push it onto the
ambient suite's tests; `test.fail` only pushes it onto the ambient
suite's tests. -/
def declApply (chain : List SuiteNode) (st : DeclState) (c : DeclCall) : DeclState :=
  let t := declTest chain c
  match c.kind with
  | DeclKind.failDecl => { st with suiteTests := st.suiteTests ++ [t] }
  | _ =>
    { registry := st.registry.map (fun reg => (testId t, t) :: reg),
      suiteTests := st.suiteTests ++ [t] }

/-- A sequence of declaration-API calls, applied in order. -/
def declRun (chain : List SuiteNode) (calls : List DeclCall) (st : DeclState) :
    DeclState :=
  calls.foldl (declApply chain) st

/-- The worker-side lookup `globalThis.tests[testId]`. -/
def registryLookup (reg : List (String × TestCase)) (id : String) :
    Option TestCase :=
  (reg.find? (fun p => decide (p.1 = id))).map Prod.snd

/-- The registry contents after a call sequence from an empty registry:
one binding per `test`/`test.skip` call (none for `test.fail`), most
recent first. -/
def declRegistry (chain : List SuiteNode) (calls : List DeclCall) :
    List (String × TestCase) :=
  ((calls.filter (fun c => c.kind ≠ DeclKind.failDecl)).map
    (fun c => (testId (declTest chain c), declTest chain c))).reverse

lemma declRun_some (chain : List SuiteNode) :
    ∀ (calls : List DeclCall) (reg0 : List (String × TestCase)) (ts0 : List TestCase),
      declRun chain calls { registry := some reg0, suiteTests := ts0 } =
        { registry := some
            (((calls.filter (fun c => c.kind ≠ DeclKind.failDecl)).map
              (fun c => (testId (declTest chain c), declTest chain c))).reverse ++ reg0),
          suiteTests := ts0 ++ calls.map (declTest chain) } := by
  intro calls
  induction calls with
  | nil => intro reg0 ts0; simp [declRun]
  | cons c cs ih =>
    intro reg0 ts0
    rw [declRun, List.foldl_cons]
    cases hk : c.kind
    · have happ : declApply chain { registry := some reg0, suiteTests := ts0 } c =
          { registry := some ((testId (declTest chain c), declTest chain c) :: reg0),
            suiteTests := ts0 ++ [declTest chain c] } := by
        simp [declApply, hk]
      rw [happ]
      rw [show ∀ st, List.foldl (declApply chain) st cs = declRun chain cs st from fun _ => rfl]
      rw [ih]
      simp [hk, List.filter_cons, List.append_assoc]
    · have happ : declApply chain { registry := some reg0, suiteTests := ts0 } c =
          { registry := some ((testId (declTest chain c), declTest chain c) :: reg0),
            suiteTests := ts0 ++ [declTest chain c] } := by
        simp [declApply, hk]
      rw [happ]
      rw [show ∀ st, List.foldl (declApply chain) st cs = declRun chain cs st from fun _ => rfl]
      rw [ih]
      simp [hk, List.filter_cons, List.append_assoc]
    · have happ : declApply chain { registry := some reg0, suiteTests := ts0 } c =
          { registry := some reg0, suiteTests := ts0 ++ [declTest chain c] } := by
        simp [declApply, hk]
      rw [happ]
      rw [show ∀ st, List.foldl (declApply chain) st cs = declRun chain cs st from fun _ => rfl]
      rw [ih]
      simp [hk, List.filter_cons, List.append_assoc]

lemma declRun_none (chain : List SuiteNode) :
    ∀ (calls : List DeclCall) (ts0 : List TestCase),
      (declRun chain calls { registry := none, suiteTests := ts0 }).registry = none := by
  intro calls
  induction calls with
  | nil => intro ts0; rfl
  | cons c cs ih =>
    intro ts0
    rw [declRun, List.foldl_cons]
    cases hk : c.kind
    · have happ : declApply chain { registry := none, suiteTests := ts0 } c =
          { registry := none, suiteTests := ts0 ++ [declTest chain c] } := by
        simp [declApply, hk]
      rw [happ]
      exact ih (ts0 ++ [declTest chain c])
    · have happ : declApply chain { registry := none, suiteTests := ts0 } c =
          { registry := none, suiteTests := ts0 ++ [declTest chain c] } := by
        simp [declApply, hk]
      rw [happ]
      exact ih (ts0 ++ [declTest chain c])
    · have happ : declApply chain { registry := none, suiteTests := ts0 } c =
          { registry := none, suiteTests := ts0 ++ [declTest chain c] } := by
        simp [declApply, hk]
      rw [happ]
      exact ih (ts0 ++ [declTest chain c])

/-- C10 (amended): after any sequence of declaration-API calls from a
fresh registry, the ambient suite holds every declared test in order; the
registry binds exactly the ids of the tests declared via `test()` and
`test.skip()` — a `test.fail()` declaration is appended to the suite but
never added to the registry — so the worker-side lookup of a fail-declared
test's id finds no entry provided no `test()`/`test.skip()` declaration
shares that id; and when the registry does not exist, no call creates it. -/
theorem registry_contents_spec (chain : List SuiteNode) (calls : List DeclCall) :
    (declRun chain calls { registry := some [], suiteTests := [] }).registry =
      some (declRegistry chain calls) ∧
    (declRun chain calls { registry := some [], suiteTests := [] }).suiteTests =
      calls.map (declTest chain) ∧
    (∀ id : String,
      (registryLookup (declRegistry chain calls) id).isSome = true ↔
        id ∈ (calls.filter (fun c => c.kind ≠ DeclKind.failDecl)).map
          (fun c => testId (declTest chain c))) ∧
    (∀ c ∈ calls, c.kind = DeclKind.failDecl →
      (∀ c' ∈ calls, c'.kind ≠ DeclKind.failDecl →
        testId (declTest chain c') ≠ testId (declTest chain c)) →
      registryLookup (declRegistry chain calls) (testId (declTest chain c)) = none) ∧
    (declRun chain calls { registry := none, suiteTests := [] }).registry = none := by
  have hmapSome : ∀ {α β : Type} (f : α → β) (o : Option α), (o.map f).isSome = o.isSome := by
    intro α β f o
    cases o <;> rfl
  refine ⟨?_, ?_, ?_, ?_, declRun_none chain calls []⟩
  · rw [declRun_some chain calls [] []]
    simp [declRegistry]
  · rw [declRun_some chain calls [] []]
    simp
  · intro id
    rw [registryLookup, hmapSome, List.find?_isSome]
    constructor
    · rintro ⟨p, hp, hpq⟩
      have hmem : p ∈ (calls.filter (fun c => c.kind ≠ DeclKind.failDecl)).map
          (fun c => (testId (declTest chain c), declTest chain c)) := by
        rw [declRegistry] at hp
        exact List.mem_reverse.mp hp
      obtain ⟨c, hc, rfl⟩ := List.mem_map.mp hmem
      have : testId (declTest chain c) = id := by simpa using hpq
      exact this ▸ List.mem_map.mpr ⟨c, hc, rfl⟩
    · intro hid
      obtain ⟨c, hc, hcid⟩ := List.mem_map.mp hid
      refine ⟨(testId (declTest chain c), declTest chain c), ?_, by simpa using hcid⟩
      rw [declRegistry]
      exact List.mem_reverse.mpr (List.mem_map.mpr ⟨c, hc, rfl⟩)
  · intro c hc hck hfresh
    rw [registryLookup]
    have hnone : (declRegistry chain calls).find?
        (fun p => decide (p.1 = testId (declTest chain c))) = none := by
      rw [List.find?_eq_none]
      intro p hp
      have hmem : p ∈ (calls.filter (fun u => u.kind ≠ DeclKind.failDecl)).map
          (fun u => (testId (declTest chain u), declTest chain u)) := by
        rw [declRegistry] at hp
        exact List.mem_reverse.mp hp
      obtain ⟨c', hc', rfl⟩ := List.mem_map.mp hmem
      obtain ⟨hc'mem, hc'kind⟩ := List.mem_filter.mp hc'
      have hne : testId (declTest chain c') ≠ testId (declTest chain c) :=
        hfresh c' hc'mem (by simpa using hc'kind)
      simpa using hne
    rw [hnone]
    rfl

/-- The fail-declared test used by the counterexample and the witness. -/
def collidingFail : DeclCall :=
  { kind := DeclKind.failDecl, title := "a", location := { row := 5, column := 1 },
    fn := 0 }

/-- A `test()` declaration with the same title and location as
`collidingFail` (hence the same id), but a different test function. -/
def collidingNormal : DeclCall :=
  { kind := DeclKind.normal, title := "a", location := { row := 5, column := 1 },
    fn := 1 }

/-- C10 counterexample: after declaring `test.fail("a", …)` and then
`test("a", …)` at the same location, the two declared tests are distinct,
yet the worker-side lookup of the fail-declared test's id finds an entry
(the `test()`-declared test registered under the same id). This refutes
the claim's universal conclusion that the lookup of a fail-declared
test's id finds no entry. -/
theorem fail_lookup_counterexample :
    declTest demoChain collidingFail ≠ declTest demoChain collidingNormal ∧
    ((declRun demoChain [collidingFail, collidingNormal]
        { registry := some [], suiteTests := [] }).registry.map
      (fun reg =>
        (registryLookup reg (testId (declTest demoChain collidingFail))).isSome)) =
      some true := by
  exact ⟨by decide, rfl⟩

/-- Witness for C10 with one `test.fail` and one non-colliding `test`
declaration: the fail-declared test's id is absent from the registry. -/
theorem registry_contents_spec_witness :
    collidingFail ∈ [collidingFail, { collidingNormal with title := "b" }] ∧
    registryLookup
        (declRegistry demoChain [collidingFail, { collidingNormal with title := "b" }])
        (testId (declTest demoChain collidingFail)) = none :=
  ⟨by decide,
    (registry_contents_spec demoChain
        [collidingFail, { collidingNormal with title := "b" }]).2.2.2.1
      collidingFail (by decide) rfl (by decide)⟩

end TuiTest
